import Mathlib

/-!
Verification of the Apillon go-sdk client library: a shallow embedding of the
`requests` package (authenticated HTTP with a bounded retry loop) and the
`storage` package (multi-file upload orchestration over signed URLs), together
with theorems settling the specified behavioural claims.

The network, the JSON decoder and the environment are modelled as explicit
oracles supplied to each function; machine time is a natural number of seconds
advanced only by the explicit sleeps in the code.
-/

namespace Requests

/-- Constant `maxRetries = 3` from requests.go. -/
def maxRetries : Nat := 3

/-- Constant `retryDelay = time.Second`, measured here in seconds. -/
def retryDelay : Nat := 1

/-- `APIError` struct: the structured `{status, message}` error envelope. -/
structure APIError where
  status : Nat
  message : String
deriving Repr, DecidableEq

/-- Outcome of one `client.Do` call plus the subsequent body read, as seen by
`doRequest`.  `netErr` is a network-level failure of `client.Do`; `readErr` is
a failure of `io.ReadAll` on the body; `response` carries the status code, the
body, and the result of `json.Unmarshal`-ing the body into `APIError`
(`none` when the body is not decodable as that envelope). -/
inductive HTTPResult where
  | netErr (cause : String)
  | readErr
  | response (statusCode : Nat) (body : String) (decoded : Option APIError)
deriving Repr, DecidableEq

/-- The caller-supplied `context.Context`, abstracted to its cancellation
time: `cancelAt = some c` means the context is cancelled from time `c` on. -/
structure Ctx where
  cancelAt : Option Nat
deriving Repr, DecidableEq

/-- Whether the context has been cancelled by time `t`. -/
def Ctx.cancelled (ctx : Ctx) (t : Nat) : Bool :=
  match ctx.cancelAt with
  | some c => c ≤ t
  | none => false

/-- Errors returned by `doRequest`:  `apiError` is the decoded envelope
returned as `&apiErr`; `httpError` is the `fmt.Errorf("HTTP error %d: %s")`
branch for a non-decodable ≥400 body; `readBodyFailed` is the body-read
failure; `exhausted` is `fmt.Errorf("request failed after %d attempts: %w",
maxRetries, lastErr)`. -/
inductive ReqError where
  | apiError (e : APIError)
  | httpError (status : Nat) (body : String)
  | readBodyFailed
  | exhausted (attempts : Nat) (lastCause : Option String)
deriving Repr, DecidableEq

/-- Observable events of one `doRequest` run: an HTTP attempt being issued
(`client.Do` called, numbered from 0) and a `time.Sleep` of a number of
seconds. -/
inductive ReqEvent where
  | attempt (n : Nat)
  | sleep (seconds : Nat)
deriving Repr, DecidableEq

def ReqEvent.isAttempt : ReqEvent → Bool
  | .attempt _ => true
  | _ => false

/-- Number of HTTP attempts recorded in a trace. -/
def attemptCount (tr : List ReqEvent) : Nat :=
  (tr.filter ReqEvent.isAttempt).length

/-- The retry loop of `doRequest` (requests.go lines 77-118).  `transport n`
is what `client.Do` plus the body read would yield on attempt `n` were the
context alive; a cancelled context makes `client.Do` fail at once with a
"context canceled" cause.  `time.Sleep` does not observe the context, so it
always advances the clock by its full duration.  The sleep is executed after
every failed attempt, including the last one, exactly as in the source
(`time.Sleep(retryDelay * time.Duration(attempt+1)); continue`). -/
def doRequestLoop (ctx : Ctx) (transport : Nat → HTTPResult) :
    Nat → Nat → Nat → Option String → Except ReqError String × List ReqEvent
  | 0, _, _, lastErr => (.error (.exhausted maxRetries lastErr), [])
  | fuel + 1, attempt, t, _ =>
    match (if ctx.cancelled t then HTTPResult.netErr "context canceled" else transport attempt) with
    | .netErr cause =>
      let d := retryDelay * (attempt + 1)
      let rest := doRequestLoop ctx transport fuel (attempt + 1) (t + d) (some cause)
      (rest.1, .attempt attempt :: .sleep d :: rest.2)
    | .readErr => (.error .readBodyFailed, [.attempt attempt])
    | .response status body decoded =>
      if 400 ≤ status then
        match decoded with
        | none => (.error (.httpError status body), [.attempt attempt])
        | some e => (.error (.apiError e), [.attempt attempt])
      else (.ok body, [.attempt attempt])

/-- `doRequest` with a well-formed URL: the loop entered at attempt 0, time 0,
`lastErr = nil`, with the full attempt budget. -/
def doRequest (ctx : Ctx) (transport : Nat → HTTPResult) :
    Except ReqError String × List ReqEvent :=
  doRequestLoop ctx transport maxRetries 0 0 none

/-- The package-level mutable state of the `requests` package: the `apiKey`
variable (zero value `""`). -/
structure ReqState where
  apiKey : String
deriving Repr, DecidableEq

/-- The state at process start. -/
def initialState : ReqState := ⟨""⟩

/-- Name of the fallback environment variable. -/
def envVarName : String := "APILLON_API_KEY"

/-- `SetAPIKey` assigns the package-level variable unconditionally. -/
def SetAPIKey (key : String) (s : ReqState) : ReqState := { s with apiKey := key }

/-- `getAPIKey` returns the stored key when non-empty, else reads the
environment (modelled as a function, `os.Getenv` returning `""` when the
variable is unset) afresh; nothing is cached. -/
def getAPIKey (getenv : String → String) (s : ReqState) : String :=
  if s.apiKey ≠ "" then s.apiKey else getenv envVarName

end Requests

namespace Storage

/-- Error code constant `ErrCodeInvalidInput` from management.go. -/
def ErrCodeInvalidInput : Nat := 40000001

/-- Constant `defaultContentType` from upload.go. -/
def defaultContentType : String := "text/plain"

/-- Constant `urlReadyDelay = 2 * time.Second`, in seconds. -/
def urlReadyDelay : Nat := 2

/-- Modelled from the spec: the `FileMetadata` struct is declared in a models
file not present here; the wire protocol gives its JSON shape
`{fileName, contentType, path?}`. -/
structure FileMetadata where
  fileName : String
  contentType : String
  path : String
deriving Repr, DecidableEq

/-- Modelled from the spec: `WholeFile` pairs declared metadata with the raw
content supplied by the caller (`file.Metadata`, `file.Content` in
upload.go). -/
structure WholeFile where
  metadata : FileMetadata
  content : String
deriving Repr, DecidableEq

/-- A file entry of the session-start response; only its `url` field is read
by the orchestration. -/
structure SignedURLItem where
  url : String
deriving Repr, DecidableEq

/-- Modelled from the spec: the `data` object of the session-start response,
`{data: {sessionUuid, files: [{url, ...}, ...]}}`. -/
structure ProcessData where
  sessionUUID : String
  files : List SignedURLItem
deriving Repr, DecidableEq

/-- Modelled from the spec: `ProcessAPIResponse`, the decoded session-start
response body. -/
structure ProcessAPIResponse where
  data : ProcessData
deriving Repr, DecidableEq

/-- Go `error` values produced by the storage package: `storageError` is a
`&StorageError{Code, Message}` with nil `Err`; `storageWrap` one with a
wrapped cause; `netError` an underlying network failure; `wrapped` a
`fmt.Errorf("...: %w", err)`. -/
inductive GoError where
  | storageError (code : Nat) (message : String)
  | storageWrap (code : Nat) (message : String) (err : GoError)
  | netError (cause : String)
  | wrapped (contextMsg : String) (err : GoError)
deriving Repr, DecidableEq

/-- A raw HTTP request as built by `UploadFiles`: method, target URL, body
and the headers explicitly set by the code (none are set on the signed-URL
PUT, in particular no Authorization header). -/
structure HTTPRequest where
  method : String
  url : String
  body : String
  headers : List (String × String)
deriving Repr, DecidableEq

/-- Outcome of `client.Do` for a raw request. -/
inductive NetResult where
  | err (cause : String)
  | resp (statusCode : Nat) (body : String)
deriving Repr, DecidableEq

/-- The external world as seen by the storage package.  `postStart` models
`requests.PostReq` on `/storage/buckets/{bucket}/upload` applied to the
marshalled metadata list (marshalling of these plain structs cannot fail);
`parseProcess` models `json.Unmarshal` of the response into
`ProcessAPIResponse`; `put` models `client.Do` of the signed-URL PUT;
`postEnd` models `requests.PostReq` on the session-end path. -/
structure StorageEnv where
  postStart : String → List FileMetadata → Except GoError String
  parseProcess : String → Option ProcessAPIResponse
  put : HTTPRequest → NetResult
  postEnd : String → String → Except GoError String

/-- Observable events of one orchestration run. -/
inductive StorageEvent where
  | apiStart (bucket : String) (files : List FileMetadata)
  | sleepEv (seconds : Nat)
  | putReqEv (r : HTTPRequest)
  | apiEnd (bucket : String) (session : String)
deriving Repr, DecidableEq

def StorageEvent.isUploadCall : StorageEvent → Bool
  | .putReqEv _ => true
  | _ => false

def StorageEvent.isEndCall : StorageEvent → Bool
  | .apiEnd _ _ => true
  | _ => false

/-- The per-index loop of `StartUploadFilesToBucket` (upload.go lines 41-51):
default the content type, then reject an empty file name, reporting the index
of the first offending file. -/
def normalizeFiles : List FileMetadata → Nat → Except GoError (List FileMetadata)
  | [], _ => .ok []
  | f :: rest, i =>
    let f := if f.contentType = "" then { f with contentType := defaultContentType } else f
    if f.fileName = "" then
      .error (.storageError ErrCodeInvalidInput ("file at index " ++ toString i ++ " has no name"))
    else
      match normalizeFiles rest (i + 1) with
      | .error e => .error e
      | .ok rest' => .ok (f :: rest')

/-- `StartUploadFilesToBucket` (upload.go lines 25-74): validate, normalize,
then POST the metadata to the upload path.  Second component: the API calls
issued. -/
def StartUploadFilesToBucket (env : StorageEnv) (bucketUuid : String)
    (files : List FileMetadata) : Except GoError String × List StorageEvent :=
  if bucketUuid = "" then
    (.error (.storageError ErrCodeInvalidInput "bucket UUID cannot be empty"), [])
  else if files = [] then
    (.error (.storageError ErrCodeInvalidInput "no files provided for upload"), [])
  else
    match normalizeFiles files 0 with
    | .error e => (.error e, [])
    | .ok files' =>
      match env.postStart bucketUuid files' with
      | .error e =>
        (.error (.storageWrap 500 "failed to start upload session" e),
         [.apiStart bucketUuid files'])
      | .ok res => (.ok res, [.apiStart bucketUuid files'])

/-- The PUT request built by `UploadFiles`: raw body, no headers set. -/
def mkPutRequest (signedURL rawFile : String) : HTTPRequest :=
  { method := "PUT", url := signedURL, body := rawFile, headers := [] }

/-- `UploadFiles` (upload.go lines 78-122): validate the URL and content,
issue exactly one PUT of the raw bytes, succeed iff the status is in
[200, 300).  Second component: the raw requests issued. -/
def UploadFiles (put : HTTPRequest → NetResult) (signedURL rawFile : String) :
    Option GoError × List HTTPRequest :=
  if signedURL = "" then
    (some (.storageError ErrCodeInvalidInput "signed URL cannot be empty"), [])
  else if rawFile = "" then
    (some (.storageError ErrCodeInvalidInput "file content cannot be empty"), [])
  else
    let req := mkPutRequest signedURL rawFile
    match put req with
    | .err cause => (some (.storageWrap 500 "failed to upload file" (.netError cause)), [req])
    | .resp status body =>
      if status < 200 ∨ 300 ≤ status then
        (some (.storageError status ("upload failed: " ++ body)), [req])
      else (none, [req])

/-- `EndSession` (upload.go lines 126-145): validate, then POST to the
session-end path. -/
def EndSession (env : StorageEnv) (bucketUuid sessionId : String) :
    Except GoError String × List StorageEvent :=
  if bucketUuid = "" ∨ sessionId = "" then
    (.error (.storageError ErrCodeInvalidInput "bucket UUID and session ID cannot be empty"), [])
  else
    match env.postEnd bucketUuid sessionId with
    | .error e =>
      (.error (.storageWrap 500 "failed to end upload session" e),
       [.apiEnd bucketUuid sessionId])
    | .ok res => (.ok res, [.apiEnd bucketUuid sessionId])

/-- The validation loop of `UploadFileProcess` (upload.go lines 168-177):
reject the first file with empty content or empty name, else collect the
metadata. -/
def extractMetadata : List WholeFile → Except GoError (List FileMetadata)
  | [] => .ok []
  | f :: rest =>
    if f.content = "" ∨ f.metadata.fileName = "" then
      .error (.storageError ErrCodeInvalidInput
        ("file content or metadata is empty for file " ++ f.metadata.fileName))
    else
      match extractMetadata rest with
      | .error e => .error e
      | .ok rest' => .ok (f.metadata :: rest')

/-- URL extraction from the session-start response (upload.go lines 195-202):
the non-empty `url` fields, in response order. -/
def extractUrls (resp : ProcessAPIResponse) : List String :=
  (resp.data.files.map SignedURLItem.url).filter (fun u => u ≠ "")

/-- A placeholder file, standing for Go's zero value in out-of-range reads. -/
def dummyFile : WholeFile := ⟨⟨"", "", ""⟩, ""⟩

/-- The upload loop of `UploadFileProcess` (upload.go lines 222-226): upload
each file to `urls[i]` in input order, stopping at the first failure with the
failing file's name.  Second component: the raw PUT requests issued. -/
def uploadAll (put : HTTPRequest → NetResult) (urls : List String) :
    List WholeFile → Nat → Option (String × GoError) × List HTTPRequest
  | [], _ => (none, [])
  | f :: rest, i =>
    match UploadFiles put (urls.getD i "") f.content with
    | (some e, tr) => (some (f.metadata.fileName, e), tr)
    | (none, tr) =>
      let next := uploadAll put urls rest (i + 1)
      (next.1, tr ++ next.2)

/-- The PUT requests the loop issues when every upload succeeds: the i-th
file paired with `urls[i]`. -/
def expectedPuts (urls : List String) : List WholeFile → Nat → List HTTPRequest
  | [], _ => []
  | f :: rest, i => mkPutRequest (urls.getD i "") f.content :: expectedPuts urls rest (i + 1)

/-- `UploadFileProcess` (upload.go lines 152-235): validate inputs, start the
session, decode the response, extract the non-empty signed URLs, enforce the
URL-count invariant, wait the settling delay, upload the files sequentially,
and end the session.  Second component: every observable event in order. -/
def UploadFileProcess (env : StorageEnv) (bucketUuid : String)
    (files : List WholeFile) : Except GoError String × List StorageEvent :=
  if bucketUuid = "" then
    (.error (.storageError ErrCodeInvalidInput "bucket UUID cannot be empty"), [])
  else if files = [] then
    (.error (.storageError ErrCodeInvalidInput "no files provided for upload"), [])
  else
    match extractMetadata files with
    | .error e => (.error e, [])
    | .ok onlyMetadata =>
      match StartUploadFilesToBucket env bucketUuid onlyMetadata with
      | (.error e, tr) => (.error (.wrapped "failed to start upload session" e), tr)
      | (.ok res, tr) =>
        match env.parseProcess res with
        | none => (.error (.storageError 500 "failed to unmarshal process upload response"), tr)
        | some apiResp =>
          let urls := extractUrls apiResp
          if urls.length = 0 then
            (.error (.storageError 500 "no signed URLs found in process upload response"), tr)
          else if urls.length < files.length then
            (.error (.storageError 500
              ("not enough signed URLs provided. Expected " ++ toString files.length ++
                ", got " ++ toString urls.length)), tr)
          else
            let tr := tr ++ [.sleepEv urlReadyDelay]
            match uploadAll env.put urls files 0 with
            | (some (name, e), puts) =>
              (.error (.wrapped ("failed to upload file " ++ name) e),
               tr ++ puts.map .putReqEv)
            | (none, puts) =>
              match EndSession env bucketUuid apiResp.data.sessionUUID with
              | (.error e, tr3) =>
                (.error (.wrapped "failed to end upload session" e),
                 tr ++ puts.map .putReqEv ++ tr3)
              | (.ok res2, tr3) => (.ok res2, tr ++ puts.map .putReqEv ++ tr3)

/-- One PUT succeeds: `client.Do` returned a 2xx response. -/
def putSucceeds (put : HTTPRequest → NetResult) (r : HTTPRequest) : Prop :=
  ∃ s b, put r = .resp s b ∧ 200 ≤ s ∧ s < 300

instance (put : HTTPRequest → NetResult) (r : HTTPRequest) :
    Decidable (putSucceeds put r) := by
  unfold putSucceeds
  cases h : put r with
  | err cause =>
    exact .isFalse (by simp [h])
  | resp s b =>
    exact decidable_of_iff (200 ≤ s ∧ s < 300) (by simp [h])

/-- A benign environment, used to instantiate validation-only scenarios. -/
def envTrivial : StorageEnv where
  postStart := fun _ _ => .ok ""
  parseProcess := fun _ => none
  put := fun _ => .resp 200 ""
  postEnd := fun _ _ => .ok ""

/-- Environment whose session-start response carries a single signed URL. -/
def envOneURL : StorageEnv where
  postStart := fun _ _ => .ok "r"
  parseProcess := fun _ => some ⟨⟨"sess", [⟨"u1"⟩]⟩⟩
  put := fun _ => .resp 200 ""
  postEnd := fun _ _ => .ok "done"

/-- Environment with three signed URLs whose second upload target rejects the
PUT with a 500. -/
def envSecondFails : StorageEnv where
  postStart := fun _ _ => .ok "r"
  parseProcess := fun _ => some ⟨⟨"sess", [⟨"u1"⟩, ⟨"u2"⟩, ⟨"u3"⟩]⟩⟩
  put := fun r => if r.url = "u2" then .resp 500 "bad" else .resp 200 ""
  postEnd := fun _ _ => .ok "done"

/-- Environment whose session-start response interleaves an empty URL entry
with three non-empty ones (a surplus for two files), accepts every PUT and
ends the session with "final". -/
def envSurplus : StorageEnv where
  postStart := fun _ _ => .ok "r"
  parseProcess := fun _ => some ⟨⟨"sess", [⟨""⟩, ⟨"u1"⟩, ⟨"u2"⟩, ⟨"u3"⟩]⟩⟩
  put := fun _ => .resp 200 ""
  postEnd := fun _ _ => .ok "final"

/-- Two well-formed files used by concrete scenarios. -/
def twoFiles : List WholeFile :=
  [⟨⟨"a.txt", "text/plain", "p"⟩, "c1"⟩, ⟨⟨"b.txt", "text/plain", "p"⟩, "c2"⟩]

/-- Three well-formed files used by concrete scenarios. -/
def threeFiles : List WholeFile :=
  [⟨⟨"a.txt", "text/plain", "p"⟩, "c1"⟩, ⟨⟨"b.txt", "text/plain", "p"⟩, "c2"⟩,
   ⟨⟨"c.txt", "text/plain", "p"⟩, "c3"⟩]

end Storage

namespace Requests

lemma doRequestLoop_zero (ctx : Ctx) (transport : Nat → HTTPResult) (a t : Nat)
    (l : Option String) :
    doRequestLoop ctx transport 0 a t l = (.error (.exhausted maxRetries l), []) := rfl

lemma doRequestLoop_netErr (ctx : Ctx) (transport : Nat → HTTPResult)
    (fuel fuel' a t : Nat) (l : Option String) (cause : String)
    (hf : fuel = fuel' + 1) (hnc : ctx.cancelled t = false)
    (h : transport a = .netErr cause) :
    doRequestLoop ctx transport fuel a t l =
      ((doRequestLoop ctx transport fuel' (a + 1) (t + retryDelay * (a + 1)) (some cause)).1,
       .attempt a :: .sleep (retryDelay * (a + 1)) ::
         (doRequestLoop ctx transport fuel' (a + 1) (t + retryDelay * (a + 1)) (some cause)).2) := by
  subst hf
  simp [doRequestLoop, hnc, h]

lemma doRequestLoop_cancel (ctx : Ctx) (transport : Nat → HTTPResult)
    (fuel fuel' a t : Nat) (l : Option String)
    (hf : fuel = fuel' + 1) (hc : ctx.cancelled t = true) :
    doRequestLoop ctx transport fuel a t l =
      ((doRequestLoop ctx transport fuel' (a + 1) (t + retryDelay * (a + 1))
          (some "context canceled")).1,
       .attempt a :: .sleep (retryDelay * (a + 1)) ::
         (doRequestLoop ctx transport fuel' (a + 1) (t + retryDelay * (a + 1))
           (some "context canceled")).2) := by
  subst hf
  simp [doRequestLoop, hc]

lemma doRequestLoop_respOk (ctx : Ctx) (transport : Nat → HTTPResult)
    (fuel fuel' a t : Nat) (l : Option String) (s : Nat) (b : String) (d : Option APIError)
    (hf : fuel = fuel' + 1) (hnc : ctx.cancelled t = false)
    (h : transport a = .response s b d) (hs : s < 400) :
    doRequestLoop ctx transport fuel a t l = (.ok b, [.attempt a]) := by
  subst hf
  simp [doRequestLoop, hnc, h, Nat.not_le.mpr hs]

lemma doRequestLoop_respHTTPErr (ctx : Ctx) (transport : Nat → HTTPResult)
    (fuel fuel' a t : Nat) (l : Option String) (s : Nat) (b : String)
    (hf : fuel = fuel' + 1) (hnc : ctx.cancelled t = false)
    (h : transport a = .response s b none) (hs : 400 ≤ s) :
    doRequestLoop ctx transport fuel a t l =
      (.error (.httpError s b), [.attempt a]) := by
  subst hf
  simp [doRequestLoop, hnc, h, hs]

lemma doRequestLoop_respAPIErr (ctx : Ctx) (transport : Nat → HTTPResult)
    (fuel fuel' a t : Nat) (l : Option String) (s : Nat) (b : String) (e : APIError)
    (hf : fuel = fuel' + 1) (hnc : ctx.cancelled t = false)
    (h : transport a = .response s b (some e)) (hs : 400 ≤ s) :
    doRequestLoop ctx transport fuel a t l =
      (.error (.apiError e), [.attempt a]) := by
  subst hf
  simp [doRequestLoop, hnc, h, hs]

/-- Shared characterization: when the transport fails with a network error on
all three attempts and the context never cancels, `doRequest` issues three
attempts with sleeps of 1, 2 and 3 seconds after them (the last sleep after
the final attempt) and returns the aggregated error over the last cause. -/
lemma doRequest_allFail (ctx : Ctx) (transport : Nat → HTTPResult) (c0 c1 c2 : String)
    (h0 : transport 0 = .netErr c0) (h1 : transport 1 = .netErr c1)
    (h2 : transport 2 = .netErr c2)
    (hc0 : ctx.cancelled 0 = false) (hc1 : ctx.cancelled 1 = false)
    (hc3 : ctx.cancelled 3 = false) :
    doRequest ctx transport =
      (.error (.exhausted 3 (some c2)),
       [.attempt 0, .sleep 1, .attempt 1, .sleep 2, .attempt 2, .sleep 3]) := by
  show doRequestLoop ctx transport 3 0 0 none = _
  rw [doRequestLoop_netErr ctx transport 3 2 0 0 none c0 (by norm_num) hc0 h0]
  norm_num [retryDelay]
  rw [doRequestLoop_netErr ctx transport 2 1 1 1 (some c0) c1 (by norm_num) hc1 h1]
  norm_num [retryDelay]
  rw [doRequestLoop_netErr ctx transport 1 0 2 3 (some c1) c2 (by norm_num) hc3 h2]
  norm_num [retryDelay]
  rw [doRequestLoop_zero]
  simp [maxRetries]

end Requests

/-- C2 counterexample: a transport whose first attempt yields HTTP 500 with a
body that does not decode as the `{status, message}` envelope.  `doRequest`
makes exactly one attempt and returns the raw HTTP error immediately — the
non-decodable ≥400 response is NOT retried, contradicting the claim that such
a response is a retryable failure. -/
theorem claim2_counterexample :
    Requests.doRequest ⟨none⟩ (fun _ => .response 500 "oops" none) =
      (.error (.httpError 500 "oops"), [.attempt 0]) ∧
    Requests.attemptCount
      (Requests.doRequest ⟨none⟩ (fun _ => .response 500 "oops" none)).2 = 1 :=
  ⟨rfl, rfl⟩

/-- C2 (amended): every HTTP response with status ≥ 400 received on the first
attempt is terminal after exactly one attempt, whether or not its body decodes
as the structured error envelope: a decodable body is returned as the
structured API error, a non-decodable one as a raw HTTP error carrying the
status and body; neither case is retried. -/
theorem claim2_no_retry_on_http_error (ctx : Requests.Ctx)
    (transport : Nat → Requests.HTTPResult) (s : Nat) (b : String)
    (d : Option Requests.APIError)
    (hnc : ctx.cancelled 0 = false) (h : transport 0 = .response s b d)
    (hs : 400 ≤ s) :
    Requests.doRequest ctx transport =
      ((match d with
        | none => Except.error (Requests.ReqError.httpError s b)
        | some e => Except.error (Requests.ReqError.apiError e)), [.attempt 0]) ∧
    Requests.attemptCount (Requests.doRequest ctx transport).2 = 1 := by
  have hpair : Requests.doRequest ctx transport =
      ((match d with
        | none => Except.error (Requests.ReqError.httpError s b)
        | some e => Except.error (Requests.ReqError.apiError e)), [.attempt 0]) := by
    show Requests.doRequestLoop ctx transport 3 0 0 none = _
    cases d with
    | none => exact Requests.doRequestLoop_respHTTPErr ctx transport 3 2 0 0 none s b rfl hnc h hs
    | some e => exact Requests.doRequestLoop_respAPIErr ctx transport 3 2 0 0 none s b e rfl hnc h hs
  rw [hpair]
  exact ⟨rfl, rfl⟩

/-- Witness for C2 (amended) at a decodable 404 on the first attempt: exactly
one attempt is made and the structured error is returned. -/
theorem claim2_witness :
    Requests.doRequest ⟨none⟩ (fun _ => .response 404 "x" (some ⟨404, "x"⟩)) =
      (.error (.apiError ⟨404, "x"⟩), [.attempt 0]) ∧
    Requests.attemptCount
      (Requests.doRequest ⟨none⟩ (fun _ => .response 404 "x" (some ⟨404, "x"⟩))).2 = 1 :=
  claim2_no_retry_on_http_error ⟨none⟩ (fun _ => .response 404 "x" (some ⟨404, "x"⟩))
    404 "x" (some ⟨404, "x"⟩) rfl rfl (by norm_num)

/-- C3 counterexample: the context cancels at time 1, during the first
inter-attempt delay (the delay spans times 0 to 1).  Because the delay is a
plain `time.Sleep` that does not observe the context, the loop is NOT aborted:
two further attempts are still issued (failing at once with a cancellation
cause) and the final result is the retry-exhausted error — contradicting both
halves of the claim. -/
theorem claim3_counterexample :
    (Requests.doRequest ⟨some 1⟩ (fun _ => .netErr "down")).1 =
      .error (.exhausted 3 (some "context canceled")) ∧
    Requests.attemptCount (Requests.doRequest ⟨some 1⟩ (fun _ => .netErr "down")).2 = 3 :=
  ⟨rfl, rfl⟩

/-- C3 (amended): a cancellation that fires during the first inter-attempt
delay does not interrupt the delay or the loop; every remaining attempt is
still issued (each failing immediately with a "context canceled" cause, and
each followed by its backoff sleep), and the loop ends with the
retry-exhausted error wrapping the cancellation cause. -/
theorem claim3_cancellation_not_preemptive (transport : Nat → Requests.HTTPResult)
    (cause : String) (c : Nat)
    (h0 : transport 0 = .netErr cause) (h1 : 0 < c) (h2 : c ≤ 1) :
    Requests.doRequest ⟨some c⟩ transport =
      (.error (.exhausted 3 (some "context canceled")),
       [.attempt 0, .sleep 1, .attempt 1, .sleep 2, .attempt 2, .sleep 3]) := by
  have hc0 : Requests.Ctx.cancelled ⟨some c⟩ 0 = false := by
    simp [Requests.Ctx.cancelled]
    omega
  have hc1 : Requests.Ctx.cancelled ⟨some c⟩ 1 = true := by
    simp [Requests.Ctx.cancelled]
    omega
  have hc3 : Requests.Ctx.cancelled ⟨some c⟩ 3 = true := by
    simp [Requests.Ctx.cancelled]
    omega
  show Requests.doRequestLoop ⟨some c⟩ transport 3 0 0 none = _
  rw [Requests.doRequestLoop_netErr ⟨some c⟩ transport 3 2 0 0 none cause rfl hc0 h0]
  norm_num [Requests.retryDelay]
  rw [Requests.doRequestLoop_cancel ⟨some c⟩ transport 2 1 1 1 (some cause) rfl hc1]
  norm_num [Requests.retryDelay]
  rw [Requests.doRequestLoop_cancel ⟨some c⟩ transport 1 0 2 3 (some "context canceled") rfl hc3]
  norm_num [Requests.retryDelay]
  rw [Requests.doRequestLoop_zero]
  simp [Requests.maxRetries]

/-- Witness for C3 (amended): concrete always-failing transport, cancellation
at time 1. -/
theorem claim3_witness :
    Requests.doRequest ⟨some 1⟩ (fun _ => .netErr "down") =
      (.error (.exhausted 3 (some "context canceled")),
       [.attempt 0, .sleep 1, .attempt 1, .sleep 2, .attempt 2, .sleep 3]) :=
  claim3_cancellation_not_preemptive (fun _ => .netErr "down") "down" 1
    rfl (by norm_num) (by norm_num)

/-- C4: against a transport failing with a connectivity-class error on every
attempt (context never cancelled), `doRequest` makes exactly 3 attempts and
returns a single aggregated error wrapping the last underlying cause and
stating the attempt count 3. -/
theorem claim4_retry_bound (transport : Nat → Requests.HTTPResult)
    (c0 c1 c2 : String)
    (h0 : transport 0 = .netErr c0) (h1 : transport 1 = .netErr c1)
    (h2 : transport 2 = .netErr c2) :
    (Requests.doRequest ⟨none⟩ transport).1 = .error (.exhausted 3 (some c2)) ∧
    Requests.attemptCount (Requests.doRequest ⟨none⟩ transport).2 = 3 := by
  rw [Requests.doRequest_allFail ⟨none⟩ transport c0 c1 c2 h0 h1 h2 rfl rfl rfl]
  exact ⟨rfl, rfl⟩

/-- Witness for C4: a concrete transport that always fails with cause
"connection refused". -/
theorem claim4_witness :
    (Requests.doRequest ⟨none⟩ (fun _ => .netErr "connection refused")).1 =
      .error (.exhausted 3 (some "connection refused")) ∧
    Requests.attemptCount
      (Requests.doRequest ⟨none⟩ (fun _ => .netErr "connection refused")).2 = 3 :=
  claim4_retry_bound (fun _ => .netErr "connection refused")
    "connection refused" "connection refused" "connection refused" rfl rfl rfl

/-- C5 counterexample: for an always-failing transport the trace ends with a
`sleep 3` event, i.e. a 3-second delay IS applied after the last attempt,
contradicting the claim's "no delay is applied after the last attempt"
(the code runs `time.Sleep` before `continue` even on the final iteration). -/
theorem claim5_counterexample :
    (Requests.doRequest ⟨none⟩ (fun _ => .netErr "down")).2 =
      [.attempt 0, .sleep 1, .attempt 1, .sleep 2, .attempt 2, .sleep 3] ∧
    (Requests.doRequest ⟨none⟩ (fun _ => .netErr "down")).2.getLast? =
      some (.sleep 3) :=
  ⟨rfl, rfl⟩

/-- C5 (amended): the delay preceding the (n+1)-th attempt equals n × 1
second (1s before attempt 2, 2s before attempt 3); additionally, when the
final attempt also fails, a delay of 3 × 1 seconds is applied after it,
before the aggregated error is returned. -/
theorem claim5_linear_backoff (transport : Nat → Requests.HTTPResult)
    (c0 c1 c2 : String)
    (h0 : transport 0 = .netErr c0) (h1 : transport 1 = .netErr c1)
    (h2 : transport 2 = .netErr c2) :
    (Requests.doRequest ⟨none⟩ transport).2 =
      [.attempt 0, .sleep 1, .attempt 1, .sleep 2, .attempt 2, .sleep 3] := by
  rw [Requests.doRequest_allFail ⟨none⟩ transport c0 c1 c2 h0 h1 h2 rfl rfl rfl]

/-- Witness for C5 (amended). -/
theorem claim5_witness :
    (Requests.doRequest ⟨none⟩ (fun _ => .netErr "down")).2 =
      [.attempt 0, .sleep 1, .attempt 1, .sleep 2, .attempt 2, .sleep 3] :=
  claim5_linear_backoff (fun _ => .netErr "down") "down" "down" "down" rfl rfl rfl

/-- C6 counterexample: after a first `SetAPIKey "a"` (under which requests
observe "a"), a later `SetAPIKey "b"` changes the observed credential to "b".
The credential is therefore not immutable after its first set. -/
theorem claim6_counterexample :
    Requests.getAPIKey (fun _ => "") (Requests.SetAPIKey "a" Requests.initialState) = "a" ∧
    Requests.getAPIKey (fun _ => "")
      (Requests.SetAPIKey "b" (Requests.SetAPIKey "a" Requests.initialState)) = "b" ∧
    ("a" : String) ≠ "b" :=
  ⟨rfl, rfl, by decide⟩

/-- C6 (amended): `SetAPIKey` overwrites the stored key on every call (last
write wins, no set-once enforcement); `getAPIKey` returns the stored key when
it is non-empty and otherwise reads the environment variable afresh on every
call (nothing is cached); the observed credential is constant only under the
caller discipline of setting the key at most once and keeping the environment
fixed. -/
theorem claim6_credential_last_write_wins (s : Requests.ReqState) (key : String)
    (getenv : String → String) :
    (Requests.SetAPIKey key s).apiKey = key ∧
    (key ≠ "" → Requests.getAPIKey getenv (Requests.SetAPIKey key s) = key) ∧
    (∀ s2 : Requests.ReqState, s2.apiKey = "" →
      Requests.getAPIKey getenv s2 = getenv Requests.envVarName) := by
  refine ⟨rfl, ?_, ?_⟩
  · intro hk
    simp [Requests.getAPIKey, Requests.SetAPIKey, hk]
  · intro s2 h2
    simp [Requests.getAPIKey, h2]

/-- Witness for C6 (amended): a set key is observed; with no key set the
environment value is observed. -/
theorem claim6_witness :
    Requests.getAPIKey (fun _ => "e") (Requests.SetAPIKey "k" Requests.initialState) = "k" ∧
    Requests.getAPIKey (fun _ => "e") Requests.initialState = "e" :=
  ⟨(claim6_credential_last_write_wins Requests.initialState "k" (fun _ => "e")).2.1
      (by decide),
   (claim6_credential_last_write_wins Requests.initialState "k" (fun _ => "e")).2.2
      Requests.initialState rfl⟩

namespace Storage

lemma getD_mem {α : Type _} : ∀ (l : List α) (k : Nat) (d : α), k < l.length → l.getD k d ∈ l := by
  intro l
  induction l with
  | nil => intro k d h; simp at h
  | cons a tl ih =>
    intro k d h
    cases k with
    | zero => simp
    | succ k' =>
      simp only [List.getD_cons_succ]
      exact List.mem_cons_of_mem a (ih k' d (by simpa using h))

lemma extractUrls_ne (resp : ProcessAPIResponse) :
    ∀ u ∈ extractUrls resp, u ≠ "" := by
  intro u hu
  simp only [extractUrls, List.mem_filter] at hu
  simpa using hu.2

lemma extractUrls_getD_ne (resp : ProcessAPIResponse) (k : Nat)
    (hk : k < (extractUrls resp).length) : (extractUrls resp).getD k "" ≠ "" :=
  extractUrls_ne resp _ (getD_mem _ k "" hk)

lemma extractMetadata_ok_length :
    ∀ (fs : List WholeFile) (md : List FileMetadata),
    extractMetadata fs = .ok md → md.length = fs.length := by
  intro fs
  induction fs with
  | nil =>
    intro md h
    simp only [extractMetadata] at h
    cases h
    rfl
  | cons f rest ih =>
    intro md h
    simp only [extractMetadata] at h
    by_cases hbad : f.content = "" ∨ f.metadata.fileName = ""
    · simp [hbad] at h
    · rw [if_neg hbad] at h
      cases hr : extractMetadata rest with
      | error e => rw [hr] at h; cases h
      | ok rest' =>
        rw [hr] at h
        cases h
        simp [ih rest' hr]

lemma extractMetadata_ok_mem :
    ∀ (fs : List WholeFile) (md : List FileMetadata),
    extractMetadata fs = .ok md →
    ∀ f ∈ fs, f.content ≠ "" ∧ f.metadata.fileName ≠ "" := by
  intro fs
  induction fs with
  | nil => intro md _ f hf; simp at hf
  | cons g rest ih =>
    intro md h f hf
    simp only [extractMetadata] at h
    by_cases hbad : g.content = "" ∨ g.metadata.fileName = ""
    · simp [hbad] at h
    · rw [if_neg hbad] at h
      push_neg at hbad
      rcases List.mem_cons.mp hf with hfg | hfr
      · subst hfg; exact hbad
      · cases hr : extractMetadata rest with
        | error e => rw [hr] at h; cases h
        | ok rest' => exact ih rest' hr f hfr

lemma extractMetadata_bad :
    ∀ fs : List WholeFile,
    (∃ f ∈ fs, f.content = "" ∨ f.metadata.fileName = "") →
    ∃ msg, extractMetadata fs = .error (.storageError ErrCodeInvalidInput msg) := by
  intro fs
  induction fs with
  | nil => intro h; simp at h
  | cons g rest ih =>
    intro h
    by_cases hbad : g.content = "" ∨ g.metadata.fileName = ""
    · exact ⟨"file content or metadata is empty for file " ++ g.metadata.fileName,
        by simp [extractMetadata, hbad]⟩
    · have hrest : ∃ f ∈ rest, f.content = "" ∨ f.metadata.fileName = "" := by
        rcases h with ⟨f, hf, hfc⟩
        rcases List.mem_cons.mp hf with hfg | hfr
        · subst hfg; exact absurd hfc hbad
        · exact ⟨f, hfr, hfc⟩
      obtain ⟨msg, hmsg⟩ := ih hrest
      exact ⟨msg, by simp [extractMetadata, hbad, hmsg]⟩

lemma UploadFiles_ok (put : HTTPRequest → NetResult) (url content : String)
    (hu : url ≠ "") (hc : content ≠ "")
    (hs : putSucceeds put (mkPutRequest url content)) :
    UploadFiles put url content = (none, [mkPutRequest url content]) := by
  obtain ⟨s, b, hput, h1, h2⟩ := hs
  have hrange : ¬(s < 200 ∨ 300 ≤ s) := by omega
  simp [UploadFiles, hu, hc, hput, hrange]

lemma UploadFiles_fail (put : HTTPRequest → NetResult) (url content : String)
    (hu : url ≠ "") (hc : content ≠ "")
    (hf : ¬ putSucceeds put (mkPutRequest url content)) :
    ∃ e, UploadFiles put url content = (some e, [mkPutRequest url content]) := by
  cases hput : put (mkPutRequest url content) with
  | err cause =>
    exact ⟨.storageWrap 500 "failed to upload file" (.netError cause),
      by simp [UploadFiles, hu, hc, hput]⟩
  | resp s b =>
    have hrange : s < 200 ∨ 300 ≤ s := by
      by_contra hcon
      exact hf ⟨s, b, hput, by omega, by omega⟩
    exact ⟨.storageError s ("upload failed: " ++ b),
      by simp [UploadFiles, hu, hc, hput, hrange]⟩

lemma uploadAll_ok (put : HTTPRequest → NetResult) (urls : List String) :
    ∀ (fs : List WholeFile) (i : Nat),
    (∀ j, j < fs.length →
      urls.getD (i + j) "" ≠ "" ∧ (fs.getD j dummyFile).content ≠ "" ∧
      putSucceeds put (mkPutRequest (urls.getD (i + j) "") (fs.getD j dummyFile).content)) →
    uploadAll put urls fs i = (none, expectedPuts urls fs i) := by
  intro fs
  induction fs with
  | nil => intro i _; simp [uploadAll, expectedPuts]
  | cons f rest ih =>
    intro i h
    obtain ⟨hu, hc, hs⟩ := h 0 (by simp)
    simp only [Nat.add_zero, List.getD_cons_zero] at hu hc hs
    have hrest : ∀ j, j < rest.length →
        urls.getD (i + 1 + j) "" ≠ "" ∧ (rest.getD j dummyFile).content ≠ "" ∧
        putSucceeds put
          (mkPutRequest (urls.getD (i + 1 + j) "") (rest.getD j dummyFile).content) := by
      intro j hj
      have h' := h (j + 1) (by simpa using Nat.succ_lt_succ hj)
      rw [show i + (j + 1) = i + 1 + j by omega] at h'
      simpa using h'
    simp only [uploadAll]
    rw [UploadFiles_ok put _ _ hu hc hs, ih (i + 1) hrest]
    simp [expectedPuts]

lemma uploadAll_fail (put : HTTPRequest → NetResult) (urls : List String) :
    ∀ (fs : List WholeFile) (i k : Nat), k < fs.length →
    (∀ j, j < fs.length →
      urls.getD (i + j) "" ≠ "" ∧ (fs.getD j dummyFile).content ≠ "") →
    (∀ j, j < k →
      putSucceeds put (mkPutRequest (urls.getD (i + j) "") (fs.getD j dummyFile).content)) →
    ¬ putSucceeds put (mkPutRequest (urls.getD (i + k) "") (fs.getD k dummyFile).content) →
    ∃ e, uploadAll put urls fs i =
      (some ((fs.getD k dummyFile).metadata.fileName, e),
       expectedPuts urls (fs.take (k + 1)) i) := by
  intro fs
  induction fs with
  | nil => intro i k hk; simp at hk
  | cons f rest ih =>
    intro i k hk hvalid hgood hbad
    obtain ⟨hu, hc⟩ := hvalid 0 (by simp)
    simp only [Nat.add_zero, List.getD_cons_zero] at hu hc
    cases k with
    | zero =>
      simp only [Nat.add_zero, List.getD_cons_zero] at hbad
      obtain ⟨e, he⟩ := UploadFiles_fail put _ _ hu hc hbad
      refine ⟨e, ?_⟩
      simp only [uploadAll]
      rw [he]
      simp [expectedPuts]
    | succ k' =>
      have hs0 := hgood 0 (by omega)
      simp only [Nat.add_zero, List.getD_cons_zero] at hs0
      have hvalid' : ∀ j, j < rest.length →
          urls.getD (i + 1 + j) "" ≠ "" ∧ (rest.getD j dummyFile).content ≠ "" := by
        intro j hj
        have h' := hvalid (j + 1) (by simpa using Nat.succ_lt_succ hj)
        rw [show i + (j + 1) = i + 1 + j by omega] at h'
        simpa using h'
      have hgood' : ∀ j, j < k' →
          putSucceeds put
            (mkPutRequest (urls.getD (i + 1 + j) "") (rest.getD j dummyFile).content) := by
        intro j hj
        have h' := hgood (j + 1) (by omega)
        rw [show i + (j + 1) = i + 1 + j by omega] at h'
        simpa using h'
      have hbad' : ¬ putSucceeds put
          (mkPutRequest (urls.getD (i + 1 + k') "") (rest.getD k' dummyFile).content) := by
        rw [show i + 1 + k' = i + (k' + 1) by omega]
        simpa using hbad
      obtain ⟨e, he⟩ := ih (i + 1) k' (by simpa using hk) hvalid' hgood' hbad'
      refine ⟨e, ?_⟩
      simp only [uploadAll]
      rw [UploadFiles_ok put _ _ hu hc hs0, he]
      simp [expectedPuts, List.take_succ_cons]

end Storage

open Storage in
/-- C1: when the session-start phase succeeds but the response carries fewer
signed URLs (non-empty URL entries) than requested files, the orchestration
fails with the protocol-violation error (a code-500 storage error reporting
the shortfall, or the no-URLs variant when none arrived) and its event trace
contains no per-file upload call and no session-end call. -/
theorem claim1_url_shortfall (env : StorageEnv) (bucket : String)
    (files : List WholeFile) (md md' : List FileMetadata)
    (res : String) (resp : ProcessAPIResponse)
    (hb : bucket ≠ "") (hfne : files ≠ [])
    (hmd : extractMetadata files = .ok md)
    (hnorm : normalizeFiles md 0 = .ok md')
    (hpost : env.postStart bucket md' = .ok res)
    (hparse : env.parseProcess res = some resp)
    (hshort : (extractUrls resp).length < files.length) :
    UploadFileProcess env bucket files =
      (.error (if (extractUrls resp).length = 0 then
          .storageError 500 "no signed URLs found in process upload response"
        else
          .storageError 500
            ("not enough signed URLs provided. Expected " ++ toString files.length ++
              ", got " ++ toString (extractUrls resp).length)),
       [.apiStart bucket md']) ∧
    (UploadFileProcess env bucket files).2.filter StorageEvent.isUploadCall = [] ∧
    (UploadFileProcess env bucket files).2.filter StorageEvent.isEndCall = [] := by
  have hlen := extractMetadata_ok_length files md hmd
  have hmdne : md ≠ [] := by
    intro hnil
    apply hfne
    apply List.length_eq_zero.mp
    rw [← hlen, hnil]
    rfl
  have hstart : StartUploadFilesToBucket env bucket md =
      (.ok res, [.apiStart bucket md']) := by
    simp [StartUploadFilesToBucket, hb, hmdne, hnorm, hpost]
  have hpair : UploadFileProcess env bucket files =
      (.error (if (extractUrls resp).length = 0 then
          .storageError 500 "no signed URLs found in process upload response"
        else
          .storageError 500
            ("not enough signed URLs provided. Expected " ++ toString files.length ++
              ", got " ++ toString (extractUrls resp).length)),
       [.apiStart bucket md']) := by
    by_cases h0 : (extractUrls resp).length = 0
    · simp [UploadFileProcess, hb, hfne, hmd, hstart, hparse, h0]
    · simp [UploadFileProcess, hb, hfne, hmd, hstart, hparse, h0, hshort]
  refine ⟨hpair, ?_, ?_⟩ <;> rw [hpair] <;> rfl

open Storage in
/-- Witness for C1: two files, a session-start response with a single signed
URL — no upload call is issued. -/
theorem claim1_witness :
    (UploadFileProcess envOneURL "b" twoFiles).2.filter StorageEvent.isUploadCall = [] ∧
    (UploadFileProcess envOneURL "b" twoFiles).2.filter StorageEvent.isEndCall = [] :=
  ⟨(claim1_url_shortfall envOneURL "b" twoFiles
      [⟨"a.txt", "text/plain", "p"⟩, ⟨"b.txt", "text/plain", "p"⟩]
      [⟨"a.txt", "text/plain", "p"⟩, ⟨"b.txt", "text/plain", "p"⟩]
      "r" ⟨⟨"sess", [⟨"u1"⟩]⟩⟩
      (by decide) (by decide) rfl rfl rfl rfl (by decide)).2.1,
   (claim1_url_shortfall envOneURL "b" twoFiles
      [⟨"a.txt", "text/plain", "p"⟩, ⟨"b.txt", "text/plain", "p"⟩]
      [⟨"a.txt", "text/plain", "p"⟩, ⟨"b.txt", "text/plain", "p"⟩]
      "r" ⟨⟨"sess", [⟨"u1"⟩]⟩⟩
      (by decide) (by decide) rfl rfl rfl rfl (by decide)).2.2⟩

open Storage in
/-- C7: uploads proceed sequentially in the caller's input order; when the
upload of file k (0-based) fails and every earlier upload succeeded, the PUT
trace consists of exactly the files up to and including k, paired in order
with the non-empty signed URLs, and no session-end call is issued (the whole
trace being the start call, the settling sleep, and those PUTs). -/
theorem claim7_sequential_halt_on_failure (env : StorageEnv) (bucket : String)
    (files : List WholeFile) (md md' : List FileMetadata)
    (res : String) (resp : ProcessAPIResponse) (k : Nat)
    (hb : bucket ≠ "") (hfne : files ≠ [])
    (hmd : extractMetadata files = .ok md)
    (hnorm : normalizeFiles md 0 = .ok md')
    (hpost : env.postStart bucket md' = .ok res)
    (hparse : env.parseProcess res = some resp)
    (henough : files.length ≤ (extractUrls resp).length)
    (hk : k < files.length)
    (hgood : ∀ j, j < k → putSucceeds env.put
      (mkPutRequest ((extractUrls resp).getD j "") (files.getD j dummyFile).content))
    (hbad : ¬ putSucceeds env.put
      (mkPutRequest ((extractUrls resp).getD k "") (files.getD k dummyFile).content)) :
    ∃ e, UploadFileProcess env bucket files =
      (.error (.wrapped ("failed to upload file " ++
          (files.getD k dummyFile).metadata.fileName) e),
       [.apiStart bucket md', .sleepEv 2] ++
         (expectedPuts (extractUrls resp) (files.take (k + 1)) 0).map .putReqEv) := by
  have hlen := extractMetadata_ok_length files md hmd
  have hmdne : md ≠ [] := by
    intro hnil
    apply hfne
    apply List.length_eq_zero.mp
    rw [← hlen, hnil]
    rfl
  have hstart : StartUploadFilesToBucket env bucket md =
      (.ok res, [.apiStart bucket md']) := by
    simp [StartUploadFilesToBucket, hb, hmdne, hnorm, hpost]
  have hvalid : ∀ j, j < files.length →
      (extractUrls resp).getD (0 + j) "" ≠ "" ∧ (files.getD j dummyFile).content ≠ "" := by
    intro j hj
    refine ⟨?_, ?_⟩
    · simp only [Nat.zero_add]
      exact extractUrls_getD_ne resp j (by omega)
    · exact (extractMetadata_ok_mem files md hmd _ (getD_mem files j dummyFile hj)).1
  have hgood' : ∀ j, j < k → putSucceeds env.put
      (mkPutRequest ((extractUrls resp).getD (0 + j) "") (files.getD j dummyFile).content) := by
    intro j hj
    simpa using hgood j hj
  have hbad' : ¬ putSucceeds env.put
      (mkPutRequest ((extractUrls resp).getD (0 + k) "") (files.getD k dummyFile).content) := by
    simpa using hbad
  obtain ⟨e, he⟩ := uploadAll_fail env.put (extractUrls resp) files 0 k hk hvalid hgood' hbad'
  have hlen0 : ¬((extractUrls resp).length = 0) := by omega
  have hnotlt : ¬((extractUrls resp).length < files.length) := by omega
  refine ⟨e, ?_⟩
  simp [UploadFileProcess, hb, hfne, hmd, hstart, hparse, hlen0, hnotlt, he, urlReadyDelay]

open Storage in
/-- Witness for C7: three files against an environment whose second signed
URL rejects its PUT — exactly files 1 and 2 are attempted, file 3 never, and
no session-end call appears in the trace. -/
theorem claim7_witness :
    ∃ e, UploadFileProcess envSecondFails "b" threeFiles =
      (.error (.wrapped ("failed to upload file " ++
          (threeFiles.getD 1 dummyFile).metadata.fileName) e),
       [.apiStart "b"
          [⟨"a.txt", "text/plain", "p"⟩, ⟨"b.txt", "text/plain", "p"⟩,
           ⟨"c.txt", "text/plain", "p"⟩], .sleepEv 2] ++
         (expectedPuts (extractUrls ⟨⟨"sess", [⟨"u1"⟩, ⟨"u2"⟩, ⟨"u3"⟩]⟩⟩)
           (threeFiles.take 2) 0).map .putReqEv) :=
  claim7_sequential_halt_on_failure envSecondFails "b" threeFiles
    [⟨"a.txt", "text/plain", "p"⟩, ⟨"b.txt", "text/plain", "p"⟩, ⟨"c.txt", "text/plain", "p"⟩]
    [⟨"a.txt", "text/plain", "p"⟩, ⟨"b.txt", "text/plain", "p"⟩, ⟨"c.txt", "text/plain", "p"⟩]
    "r" ⟨⟨"sess", [⟨"u1"⟩, ⟨"u2"⟩, ⟨"u3"⟩]⟩⟩ 1
    (by decide) (by decide) rfl rfl rfl rfl (by decide) (by decide)
    (by decide) (by decide)

open Storage in
/-- C8: an empty bucket id, an empty file list, or any file with empty
content or empty name makes `UploadFileProcess` return the invalid-input
storage error with an empty event trace: no session-start, upload or
session-end call is issued. -/
theorem claim8_input_validation (env : StorageEnv) (bucket : String)
    (files : List WholeFile)
    (h : bucket = "" ∨ files = [] ∨
      ∃ f ∈ files, f.content = "" ∨ f.metadata.fileName = "") :
    ∃ msg, UploadFileProcess env bucket files =
      (.error (.storageError ErrCodeInvalidInput msg), []) := by
  by_cases hb : bucket = ""
  · exact ⟨"bucket UUID cannot be empty", by simp [UploadFileProcess, hb]⟩
  · by_cases hfe : files = []
    · exact ⟨"no files provided for upload", by simp [UploadFileProcess, hb, hfe]⟩
    · have hbad : ∃ f ∈ files, f.content = "" ∨ f.metadata.fileName = "" := by
        rcases h with h | h | h
        · exact absurd h hb
        · exact absurd h hfe
        · exact h
      obtain ⟨msg, hmsg⟩ := extractMetadata_bad files hbad
      exact ⟨msg, by simp [UploadFileProcess, hb, hfe, hmsg]⟩

open Storage in
/-- Witness for C8: a file with empty content short-circuits with the
invalid-input error and an empty trace. -/
theorem claim8_witness :
    ∃ msg, UploadFileProcess envTrivial "b" [⟨⟨"a.txt", "text/plain", "p"⟩, ""⟩] =
      (.error (.storageError ErrCodeInvalidInput msg), []) :=
  claim8_input_validation envTrivial "b" [⟨⟨"a.txt", "text/plain", "p"⟩, ""⟩]
    (Or.inr (Or.inr ⟨⟨⟨"a.txt", "text/plain", "p"⟩, ""⟩, by simp, Or.inl rfl⟩))

open Storage in
/-- C9: `UploadFiles` with a non-empty signed URL and non-empty content
issues exactly one request — a PUT of the raw bytes to the signed URL with no
headers set (in particular no Authorization header) — performs no retry, and
returns success iff the response status is in [200, 300); any network failure
or out-of-range status is a terminal error. -/
theorem claim9_single_unauthenticated_put (put : HTTPRequest → NetResult)
    (url content : String) (hu : url ≠ "") (hc : content ≠ "") :
    (UploadFiles put url content).2 = [mkPutRequest url content] ∧
    mkPutRequest url content =
      { method := "PUT", url := url, body := content, headers := [] } ∧
    ((UploadFiles put url content).1 = none ↔
      putSucceeds put (mkPutRequest url content)) := by
  refine ⟨?_, rfl, ?_, ?_⟩
  · cases hput : put (mkPutRequest url content) with
    | err cause => simp [UploadFiles, hu, hc, hput]
    | resp s b =>
      by_cases hr : s < 200 ∨ 300 ≤ s <;> simp [UploadFiles, hu, hc, hput, hr]
  · intro hnone
    cases hput : put (mkPutRequest url content) with
    | err cause => simp [UploadFiles, hu, hc, hput] at hnone
    | resp s b =>
      by_cases hr : s < 200 ∨ 300 ≤ s
      · simp [UploadFiles, hu, hc, hput, hr] at hnone
      · exact ⟨s, b, hput, by omega, by omega⟩
  · intro hs
    rw [UploadFiles_ok put url content hu hc hs]

open Storage in
/-- Witness for C9: a 204 response — one PUT, no headers, success. -/
theorem claim9_witness :
    (UploadFiles (fun _ => .resp 204 "") "u" "c").2 = [mkPutRequest "u" "c"] ∧
    mkPutRequest "u" "c" = { method := "PUT", url := "u", body := "c", headers := [] } ∧
    ((UploadFiles (fun _ => .resp 204 "") "u" "c").1 = none ↔
      putSucceeds (fun _ => .resp 204 "") (mkPutRequest "u" "c")) :=
  claim9_single_unauthenticated_put (fun _ => .resp 204 "") "u" "c"
    (by decide) (by decide)

open Storage in
/-- C10: when the session-start response carries at least as many non-empty
URL entries as files — possibly more, possibly interleaved with empty URL
entries — and every PUT and the session-end call succeed, the orchestration
returns the session-end payload, pairing the i-th file with the i-th
non-empty URL in response order and ignoring any surplus. -/
theorem claim10_surplus_urls_tolerated (env : StorageEnv) (bucket : String)
    (files : List WholeFile) (md md' : List FileMetadata)
    (res : String) (resp : ProcessAPIResponse) (endRes : String)
    (hb : bucket ≠ "") (hfne : files ≠ [])
    (hmd : extractMetadata files = .ok md)
    (hnorm : normalizeFiles md 0 = .ok md')
    (hpost : env.postStart bucket md' = .ok res)
    (hparse : env.parseProcess res = some resp)
    (henough : files.length ≤ (extractUrls resp).length)
    (hall : ∀ j, j < files.length → putSucceeds env.put
      (mkPutRequest ((extractUrls resp).getD j "") (files.getD j dummyFile).content))
    (hsess : resp.data.sessionUUID ≠ "")
    (hend : env.postEnd bucket resp.data.sessionUUID = .ok endRes) :
    UploadFileProcess env bucket files =
      (.ok endRes,
       [.apiStart bucket md', .sleepEv 2] ++
         (expectedPuts (extractUrls resp) files 0).map .putReqEv ++
         [.apiEnd bucket resp.data.sessionUUID]) := by
  have hlen := extractMetadata_ok_length files md hmd
  have hmdne : md ≠ [] := by
    intro hnil
    apply hfne
    apply List.length_eq_zero.mp
    rw [← hlen, hnil]
    rfl
  have hstart : StartUploadFilesToBucket env bucket md =
      (.ok res, [.apiStart bucket md']) := by
    simp [StartUploadFilesToBucket, hb, hmdne, hnorm, hpost]
  have hfpos : 0 < files.length := List.length_pos.mpr hfne
  have hok : ∀ j, j < files.length →
      (extractUrls resp).getD (0 + j) "" ≠ "" ∧ (files.getD j dummyFile).content ≠ "" ∧
      putSucceeds env.put
        (mkPutRequest ((extractUrls resp).getD (0 + j) "") (files.getD j dummyFile).content) := by
    intro j hj
    refine ⟨?_, ?_, ?_⟩
    · simp only [Nat.zero_add]
      exact extractUrls_getD_ne resp j (by omega)
    · exact (extractMetadata_ok_mem files md hmd _ (getD_mem files j dummyFile hj)).1
    · simpa using hall j hj
  have hup := uploadAll_ok env.put (extractUrls resp) files 0 hok
  have hendSess : EndSession env bucket resp.data.sessionUUID =
      (.ok endRes, [.apiEnd bucket resp.data.sessionUUID]) := by
    simp [EndSession, hb, hsess, hend]
  have hlen0 : ¬((extractUrls resp).length = 0) := by omega
  have hnotlt : ¬((extractUrls resp).length < files.length) := by omega
  simp [UploadFileProcess, hb, hfne, hmd, hstart, hparse, hlen0, hnotlt, hup,
    hendSess, urlReadyDelay]

open Storage in
/-- Witness for C10: two files, a response with an empty URL entry followed
by three non-empty URLs (one surplus) — the run succeeds, the files are
paired with the first and second non-empty URLs. -/
theorem claim10_witness :
    UploadFileProcess envSurplus "b" twoFiles =
      (.ok "final",
       [.apiStart "b" [⟨"a.txt", "text/plain", "p"⟩, ⟨"b.txt", "text/plain", "p"⟩],
        .sleepEv 2] ++
         (expectedPuts (extractUrls ⟨⟨"sess", [⟨""⟩, ⟨"u1"⟩, ⟨"u2"⟩, ⟨"u3"⟩]⟩⟩)
           twoFiles 0).map .putReqEv ++
         [.apiEnd "b" "sess"]) :=
  claim10_surplus_urls_tolerated envSurplus "b" twoFiles
    [⟨"a.txt", "text/plain", "p"⟩, ⟨"b.txt", "text/plain", "p"⟩]
    [⟨"a.txt", "text/plain", "p"⟩, ⟨"b.txt", "text/plain", "p"⟩]
    "r" ⟨⟨"sess", [⟨""⟩, ⟨"u1"⟩, ⟨"u2"⟩, ⟨"u3"⟩]⟩⟩ "final"
    (by decide) (by decide) rfl rfl rfl rfl (by decide) (by decide)
    (by decide) rfl

-- sanity: concrete runs of the retry loop
example : Requests.doRequest ⟨none⟩ (fun _ => .response 200 "ok" none) =
    (.ok "ok", [.attempt 0]) := by rfl

example : Requests.doRequest ⟨none⟩ (fun _ => .netErr "down") =
    (.error (.exhausted 3 (some "down")),
     [.attempt 0, .sleep 1, .attempt 1, .sleep 2, .attempt 2, .sleep 3]) := by rfl

example : Requests.doRequest ⟨none⟩ (fun _ => .response 500 "oops" none) =
    (.error (.httpError 500 "oops"), [.attempt 0]) := by rfl

example : Requests.doRequest ⟨some 1⟩ (fun _ => .netErr "down") =
    (.error (.exhausted 3 (some "context canceled")),
     [.attempt 0, .sleep 1, .attempt 1, .sleep 2, .attempt 2, .sleep 3]) := by rfl
